import Mathlib

/-!
Verification development for the protoc-gen-go style code generator in this
repository. The definitions below are shallow embeddings of the Go functions
they are named after (field-type codes are the int32 values of
descriptor.FieldDescriptorProto_Type; maps become association lists; the
module-level registries become explicitly threaded list state). Theorems at
the end settle the frozen claims C1 to C10.
-/

namespace ProtoGen

/-! ### Field-type codes

descriptor.FieldDescriptorProto_Type is an int32-backed enum with values
1..18. We embed it as Nat, keeping the descriptor.proto numbering, so the
default branches of the Go switches (reachable for out-of-range values of
the int32) stay reachable in the model. -/

def TYPE_DOUBLE : Nat := 1
def TYPE_FLOAT : Nat := 2
def TYPE_INT64 : Nat := 3
def TYPE_UINT64 : Nat := 4
def TYPE_INT32 : Nat := 5
def TYPE_FIXED64 : Nat := 6
def TYPE_FIXED32 : Nat := 7
def TYPE_BOOL : Nat := 8
def TYPE_STRING : Nat := 9
def TYPE_GROUP : Nat := 10
def TYPE_MESSAGE : Nat := 11
def TYPE_BYTES : Nat := 12
def TYPE_UINT32 : Nat := 13
def TYPE_ENUM : Nat := 14
def TYPE_SFIXED32 : Nat := 15
def TYPE_SFIXED64 : Nat := 16
def TYPE_SINT32 : Nat := 17
def TYPE_SINT64 : Nat := 18

/-! ### needsStar, two copies (claim C10)

src/unnamed/part_004 lines 1292-1302 and src/descriptor.go lines 585-593
both define needsStar. In the src/descriptor.go copy the cases for
TYPE_GROUP and TYPE_MESSAGE have empty statement lists, so in Go they break
out of the switch and fall through to the final `return true`; only the
TYPE_BYTES case returns false there. -/

/-- Embedding of needsStar from src/unnamed/part_004 (lines 1292-1302):
each of the three cases has an explicit `return false` body. -/
def needsStarGenerator (typ : Nat) : Bool :=
  if typ = TYPE_GROUP then false
  else if typ = TYPE_MESSAGE then false
  else if typ = TYPE_BYTES then false
  else true

/-- Embedding of needsStar from src/descriptor.go (lines 585-593): the
TYPE_GROUP and TYPE_MESSAGE cases are empty in the Go source, so matching
them breaks out of the switch and reaches `return true`; only TYPE_BYTES
has the `return false` statement. -/
def needsStarDescriptorGo (typ : Nat) : Bool :=
  if typ = TYPE_GROUP then true
  else if typ = TYPE_MESSAGE then true
  else if typ = TYPE_BYTES then false
  else true

/-! ### Field model and the packed marker (claim C3) -/

/-- Embedding of descriptor.FieldOptions as far as goTag consults it: only
the optional `packed` bool matters here. `none` at the outer level models a
nil *FieldOptions pointer; `none` at the inner level models an unset Packed
field. -/
structure FieldOptionsM where
  packed : Option Bool
deriving DecidableEq, Repr

/-- Embedding of the slice of FieldDescriptorProto that the packed-marker
computation of goTag reads: label (as the int32 codes 1 opt, 2 req,
3 rep; `none` models a nil pointer), type code, and options. -/
structure FieldM where
  label : Option Nat
  type : Option Nat
  options : Option FieldOptionsM
deriving DecidableEq, Repr

def LABEL_OPTIONAL : Nat := 1
def LABEL_REQUIRED : Nat := 2
def LABEL_REPEATED : Nat := 3

/-- Embedding of isRepeated (src/unnamed/part_004 line 2486):
`field.Label != nil && *field.Label == LABEL_REPEATED`. -/
def isRepeated (f : FieldM) : Bool :=
  match f.label with
  | none => false
  | some l => l == LABEL_REPEATED

/-- Embedding of isScalar (src/unnamed/part_004 lines 2491-2514): nil type
is not scalar; the listed numeric kinds are scalar; everything else is not. -/
def isScalar (f : FieldM) : Bool :=
  match f.type with
  | none => false
  | some t =>
    t == TYPE_DOUBLE || t == TYPE_FLOAT || t == TYPE_INT64 || t == TYPE_UINT64 ||
    t == TYPE_INT32 || t == TYPE_FIXED64 || t == TYPE_FIXED32 || t == TYPE_BOOL ||
    t == TYPE_UINT32 || t == TYPE_ENUM || t == TYPE_SFIXED32 || t == TYPE_SFIXED64 ||
    t == TYPE_SINT32 || t == TYPE_SINT64

/-- Embedding of the Go generated accessor FieldOptions.GetPacked():
false when the options pointer or the Packed field is nil. -/
def getPacked (o : Option FieldOptionsM) : Bool :=
  match o with
  | none => false
  | some fo => fo.packed.getD false

/-- Embedding of the `packed` local of goTag (src/unnamed/part_004 lines
1243-1250): the fragment is ",packed" exactly when
`(field.Options != nil && field.Options.GetPacked()) ||
 (message.proto3() && (field.Options == nil || field.Options.Packed == nil)
  && isRepeated(field) && isScalar(field))`,
else the empty string. `proto3` is the proto3() flag of the message's file. -/
def goTagPacked (proto3 : Bool) (f : FieldM) : String :=
  if (f.options.isSome && getPacked f.options) ||
     (proto3 && (f.options.isNone || (f.options.bind FieldOptionsM.packed).isNone) &&
      isRepeated f && isScalar f) then
    ",packed"
  else ""

/-! ### Map-entry key/value extraction (claim C9)

src/unnamed/part_004 lines 1506-1534: for a TYPE_MESSAGE field whose
resolved descriptor d has GetOptions().GetMapEntry() set, the generator
executes `keyField, valField := d.Field[0], d.Field[1]` with no bounds
check; in Go an entry message with fewer than two fields panics with an
index-out-of-range runtime error, embedded here as `none`. -/

/-- Embedding of the guard of the map-entry branch: the field must have
TYPE_MESSAGE and the resolved entry descriptor must carry the map-entry
flag. -/
def treatedAsMap (fieldType : Nat) (mapEntryFlag : Bool) : Bool :=
  fieldType == TYPE_MESSAGE && mapEntryFlag

/-- Embedding of `keyField, valField := d.Field[0], d.Field[1]`: the first
two entries of the entry message's field list; `none` models the Go
index-out-of-range panic when fewer than two fields exist. -/
def mapEntryKeyVal (fields : List FieldM) : Option (FieldM × FieldM) :=
  match fields with
  | k :: v :: _ => some (k, v)
  | _ => none

/-! ### Enum model and the getter fallback (claim C2) -/

/-- Embedding of EnumValueDescriptorProto as consulted here: generated
constant name part (*e.Name) and integer (*e.Number). -/
structure EnumValueM where
  name : String
  number : Int
deriving DecidableEq, Repr

/-- Embedding of EnumDescriptorProto as consulted here: the ordered value
list. -/
structure EnumM where
  value : List EnumValueM
deriving DecidableEq, Repr

/-- Embedding of the constant block emitted by generateEnum
(src/unnamed/part_004 lines 1094-1102): for each value e the generator
emits `name ccTypeName = e.Number`, so the generated environment binds each
constant name to its value's integer. (The common ccPrefix on every name is
dropped here; it does not affect which value a name is bound to.) -/
def enumConstEnv (e : EnumM) : List (String × Int) :=
  e.value.map (fun v => (v.name, v.number))

/-- Runtime value of a generated enum constant name: first binding in the
generated constant block, as in Go constant resolution of distinct names
(protoc rejects duplicate value names inside one enum, and for the head
value the first binding is the defining one regardless). -/
def enumConstValue (e : EnumM) (n : String) : Option Int :=
  (enumConstEnv e).find? (fun p => p.1 == n) |>.map (fun p => p.2)

/-- Shapes of the `return ...` statement emitted by the no-explicit-default
branch of the getter generator (src/unnamed/part_004 lines 1853-1888). -/
inductive GetterFallback where
  | retFalse
  | retEmptyString
  | retNil
  | retZeroEmptyEnum
  | retEnumConst (constName : String)
  | retZero
  | skipNoEnum
deriving DecidableEq, Repr

/-- Embedding of the switch in generateMessage that picks the fallback
return of a getter for a field with no explicit default
(src/unnamed/part_004 lines 1854-1888): bool, string and
group/message/bytes literals; for TYPE_ENUM the resolved enum object is
consulted (`none` models a type-name that does not resolve to an enum
descriptor, where the generator logs and skips the getter body), an empty
value list yields `return 0 // empty enum`, and otherwise the generated
constant of the first declared value is returned; every other kind falls
back to `return 0`. -/
def getterNoDefaultFallback (t : Nat) (enumObj : Option EnumM) : GetterFallback :=
  if t = TYPE_BOOL then .retFalse
  else if t = TYPE_STRING then .retEmptyString
  else if t = TYPE_GROUP ∨ t = TYPE_MESSAGE ∨ t = TYPE_BYTES then .retNil
  else if t = TYPE_ENUM then
    match enumObj with
    | none => .skipNoEnum
    | some e =>
      match e.value with
      | [] => .retZeroEmptyEnum
      | v :: _ => .retEnumConst v.name
  else .retZero

/-- Embedding of the typeDefaultIsNil gate before the fallback switch
(src/unnamed/part_004 lines 1787-1800): bytes without explicit default,
group, message, and every repeated field short-circuit (for non-oneof
fields) to a plain `return m.field` with no fallback at all. `none` means
the early nil-default path was taken and no fallback statement is
emitted. -/
def getterFallback (t : Nat) (isRep oneof hasDef : Bool) (enumObj : Option EnumM) :
    Option GetterFallback :=
  let typeDefaultIsNil :=
    (if t = TYPE_BYTES then !hasDef
     else if t = TYPE_GROUP ∨ t = TYPE_MESSAGE then true
     else false) || isRep
  if typeDefaultIsNil && !oneof then none
  else if hasDef then none
  else some (getterNoDefaultFallback t enumObj)

/-- Runtime integer produced by a numeric fallback statement, for the enum
case: `return 0 // empty enum` yields 0, `return 0` yields 0, and a
generated enum constant yields that constant's value in the generated
constant environment. -/
def fallbackIntValue (e : EnumM) : GetterFallback → Option Int
  | .retZeroEmptyEnum => some 0
  | .retZero => some 0
  | .retEnumConst n => enumConstValue e n
  | _ => none

/-! ### Oneof marshal and unmarshal dispatch (claims C7 and C8) -/

/-- Per-kind data computed by the oneof marshaler switch
(src/unnamed/part_004 lines 1945-2001): the proto wire-type constant
written in the tag, the pre/post strings around the value expression, and
whether the write can fail (only message and group). -/
structure OneofMarshalKind where
  wire : String
  pre : String
  post : String
  canFail : Bool
deriving DecidableEq, Repr

/-- Embedding of the per-kind switch of the oneof marshaler
(src/unnamed/part_004 lines 1945-2001). `none` is the default branch,
where the generator itself calls g.Fail (a fatal generation-time abort).
The pre/post strings keep only the wire-level call shape; package
qualifiers (g.Pkg) are dropped. Bool keeps its special val override via
the same varint call. -/
def oneofMarshalKind (t : Nat) : Option OneofMarshalKind :=
  if t = TYPE_DOUBLE then some ⟨"WireFixed64", "b.EncodeFixed64(Float64bits(", "))", false⟩
  else if t = TYPE_FLOAT then some ⟨"WireFixed32", "b.EncodeFixed32(uint64(Float32bits(", ")))", false⟩
  else if t = TYPE_INT64 ∨ t = TYPE_UINT64 then some ⟨"WireVarint", "b.EncodeVarint(uint64(", "))", false⟩
  else if t = TYPE_INT32 ∨ t = TYPE_UINT32 ∨ t = TYPE_ENUM then some ⟨"WireVarint", "b.EncodeVarint(uint64(", "))", false⟩
  else if t = TYPE_FIXED64 ∨ t = TYPE_SFIXED64 then some ⟨"WireFixed64", "b.EncodeFixed64(uint64(", "))", false⟩
  else if t = TYPE_FIXED32 ∨ t = TYPE_SFIXED32 then some ⟨"WireFixed32", "b.EncodeFixed32(uint64(", "))", false⟩
  else if t = TYPE_BOOL then some ⟨"WireVarint", "b.EncodeVarint(", ")", false⟩
  else if t = TYPE_STRING then some ⟨"WireBytes", "b.EncodeStringBytes(", ")", false⟩
  else if t = TYPE_GROUP then some ⟨"WireStartGroup", "b.Marshal(", ")", true⟩
  else if t = TYPE_MESSAGE then some ⟨"WireBytes", "b.EncodeMessage(", ")", true⟩
  else if t = TYPE_BYTES then some ⟨"WireBytes", "b.EncodeRawBytes(", ")", false⟩
  else if t = TYPE_SINT32 then some ⟨"WireVarint", "b.EncodeZigzag32(uint64(", "))", false⟩
  else if t = TYPE_SINT64 then some ⟨"WireVarint", "b.EncodeZigzag64(uint64(", "))", false⟩
  else none

/-- Statements emitted inside one case of the oneof marshaler
(src/unnamed/part_004 lines 2002-2012), in order: the tag varint write
`b.EncodeVarint(number<<3|wire)`, then the per-kind value write (checked
means wrapped in `if err := ...; err != nil { return err }`), then for
groups the end-group tag write. -/
inductive MarshalOp where
  | writeTag (number : Nat) (wire : String)
  | writeValue (pre post : String) (checked : Bool)
  | writeEndGroupTag (number : Nat)
deriving DecidableEq, Repr

/-- Embedding of the statement sequence emitted for one oneof member field
by the marshaler (src/unnamed/part_004 lines 1941-2013): `none` when the
per-kind switch hits its default branch and the generator aborts fatally. -/
def oneofMarshalOps (number t : Nat) : Option (List MarshalOp) :=
  match oneofMarshalKind t with
  | none => none
  | some k =>
    some ([MarshalOp.writeTag number k.wire, MarshalOp.writeValue k.pre k.post k.canFail] ++
      (if t = TYPE_GROUP then [MarshalOp.writeEndGroupTag number] else []))

/-- Embedding of the fieldWire map (src/unnamed/part_004 line 2003):
populated during marshaler generation with the wire constant the encode
dispatch writes for the field. -/
def fieldWireOf (t : Nat) : Option String :=
  (oneofMarshalKind t).map OneofMarshalKind.wire

/-- Per-kind decode data computed by the oneof unmarshaler switch
(src/unnamed/part_004 lines 2038-2078): the decode call and the cast
wrappers. `none` is the default branch where the generator aborts
fatally. -/
def oneofUnmarshalDec (t : Nat) : Option (String × String × String) :=
  if t = TYPE_DOUBLE then some ("b.DecodeFixed64()", "Float64frombits", "")
  else if t = TYPE_FLOAT then some ("b.DecodeFixed32()", "uint32", "Float32frombits")
  else if t = TYPE_INT64 then some ("b.DecodeVarint()", "int64", "")
  else if t = TYPE_UINT64 then some ("b.DecodeVarint()", "", "")
  else if t = TYPE_INT32 then some ("b.DecodeVarint()", "int32", "")
  else if t = TYPE_FIXED64 then some ("b.DecodeFixed64()", "", "")
  else if t = TYPE_FIXED32 then some ("b.DecodeFixed32()", "uint32", "")
  else if t = TYPE_BOOL then some ("b.DecodeVarint()", "", "")
  else if t = TYPE_STRING then some ("b.DecodeStringBytes()", "", "")
  else if t = TYPE_GROUP then some ("b.DecodeGroup(msg)", "", "")
  else if t = TYPE_MESSAGE then some ("b.DecodeMessage(msg)", "", "")
  else if t = TYPE_BYTES then some ("b.DecodeRawBytes(true)", "", "")
  else if t = TYPE_UINT32 then some ("b.DecodeVarint()", "uint32", "")
  else if t = TYPE_ENUM then some ("b.DecodeVarint()", "enumtype", "")
  else if t = TYPE_SFIXED32 then some ("b.DecodeFixed32()", "int32", "")
  else if t = TYPE_SFIXED64 then some ("b.DecodeFixed64()", "int64", "")
  else if t = TYPE_SINT32 then some ("b.DecodeZigzag32()", "int32", "")
  else if t = TYPE_SINT64 then some ("b.DecodeZigzag64()", "int64", "")
  else none

/-- Shape of the code emitted for one tag case of the oneof unmarshaler
(src/unnamed/part_004 lines 2027-2105): the wire-type guard constant
(taken from the fieldWire map the marshaler filled in), then the decode
call. `none` means the generator aborted fatally on an unhandled kind. -/
structure OneofUnmarshalCase where
  expectedWire : String
  decodeCall : String
deriving DecidableEq, Repr

/-- Embedding of the per-field case emission of the oneof unmarshaler: the
guard compares the incoming wire against fieldWire[field] and the decode
switch supplies the decode call. -/
def oneofUnmarshalCase (t : Nat) : Option OneofUnmarshalCase :=
  match fieldWireOf t, oneofUnmarshalDec t with
  | some w, some (dec, _, _) => some ⟨w, dec⟩
  | _, _ => none

/-- Runtime outcome of executing the emitted case of the oneof unmarshaler
in the generated program. -/
structure DecodeOutcome where
  handled : Bool
  badWireTypeError : Bool
  decoded : Bool
  assignedVariant : Bool
deriving DecidableEq, Repr

/-- Runtime semantics of the emitted unmarshal case: the generated code is
`if wire != proto.<expected> { return true, proto.ErrInternalBadWireType }`
followed by the decode and the variant assignment and `return true, err`;
the mismatch arm returns before any decode call or assignment runs. -/
def runOneofUnmarshalCase (c : OneofUnmarshalCase) (wire : String) : DecodeOutcome :=
  if wire ≠ c.expectedWire then
    { handled := true, badWireTypeError := true, decoded := false, assignedVariant := false }
  else
    { handled := true, badWireTypeError := false, decoded := true, assignedVariant := true }

/-! ### ObjectNamed (claim C4)

src/unnamed/part_004 lines 725-764: lookup in the type-name map built by
BuildTypeNameMap, fatal failure when absent; then the direct-dependency
check and, failing that, the scan of each direct dependency's
public-import export set, with a logged warning and the original
descriptor returned when nothing matches. Pointer identity of descriptors
is embedded as a numeric id. -/

/-- Embedding of a descriptor Object as ObjectNamed consults it: identity
and the name of its defining file (*o.File().Name). -/
structure ObjectM where
  id : Nat
  fileName : String
deriving DecidableEq, Repr

/-- Embedding of an ImportedDescriptor entry of a file's imp list: the
identity of the descriptor it wraps (its o field). -/
structure ImportedM where
  oid : Nat
deriving DecidableEq, Repr

/-- Embedding of a FileDescriptor as ObjectNamed consults it: name,
dependency list, and imp (public-import export set). -/
structure FileMod where
  name : String
  dependency : List String
  imp : List ImportedM
deriving DecidableEq, Repr

/-- Embedding of the Generator state that ObjectNamed reads: the
typeNameToObject map, allFilesByName (as the list allFiles searched by
name) and the file currently being generated. -/
structure GenM where
  typeNameToObject : List (String × ObjectM)
  allFiles : List FileMod
  file : FileMod
deriving DecidableEq, Repr

/-- Embedding of g.fileByName: lookup of a file by name. The Go map lookup
yields nil for a missing name, which the callers here dereference; the
theorems therefore assume every dependency name resolves. -/
def fileByName (g : GenM) (n : String) : Option FileMod :=
  g.allFiles.find? (fun f => f.name == n)

/-- Result of ObjectNamed with its effects made explicit: fatal abort
(g.Fail), the descriptor itself, a public-import wrapper, or the original
descriptor behind a logged warning. -/
inductive ObjectNamedResult where
  | fatal
  | direct (o : ObjectM)
  | publicImport (td : ImportedM)
  | warnedOriginal (o : ObjectM)
deriving DecidableEq, Repr

/-- Embedding of ObjectNamed (src/unnamed/part_004 lines 725-764): map
lookup with fatal failure when absent; `direct` is true when the defining
file is the current file or named by some entry of the current file's
dependency list; otherwise each direct dependency's imp list is scanned in
order for an entry wrapping the same descriptor, and when none matches a
warning is logged and the original descriptor is returned. -/
def objectNamed (g : GenM) (typeName : String) : ObjectNamedResult :=
  match (g.typeNameToObject.find? (fun p => p.1 == typeName)).map Prod.snd with
  | none => .fatal
  | some o =>
    let direct := (o.fileName == g.file.name) ||
      g.file.dependency.any (fun dep =>
        match fileByName g dep with
        | some f => f.name == o.fileName
        | none => false)
    if direct then .direct o
    else
      match g.file.dependency.findSome? (fun dep =>
        match fileByName g dep with
        | some f0 =>
          match fileByName g f0.name with
          | some df => df.imp.find? (fun td => td.oid == o.id)
          | none => none
        | none => none) with
      | some td => .publicImport td
      | none => .warnedOriginal o

/-! ### Package-name registry (claims C5 and C6)

src/unnamed/part_004 lines 359-373 (RegisterUniquePackageName) and
429-495 (SetPackageNames). The module-level pkgNamesInUse map becomes an
explicitly threaded list of registered names; a run starts with it
empty. -/

/-- Embedding of badToUnderscore (src/unnamed/part_004 lines 2517-2522):
letters, digits and the underscore pass through, everything else becomes
an underscore. unicode.IsLetter and unicode.IsDigit are embedded by the
corresponding Char classifiers. -/
def badToUnderscore (c : Char) : Char :=
  if c.isAlpha || c.isDigit || c = '_' then c else '_'

/-- Embedding of the renaming loop of RegisterUniquePackageName
(src/unnamed/part_004 lines 364-368): while the current candidate is
registered, the next candidate is the original converted name followed by
the decimal suffix i, for i = 1, 2, 3, ... The Go loop terminates because
only finitely many names are registered and the suffixed candidates are
pairwise distinct; the embedding makes the same loop structural with a
fuel argument, and registerFuelSufficient below shows the fuel chosen in
registerUniquePackageName always reaches the exit the Go loop reaches. -/
def registerLoop : Nat → String → List String → Nat → String → String
  | 0, _, _, _, pkg => pkg
  | fuel + 1, orig, inUse, i, pkg =>
    if pkg ∈ inUse then registerLoop fuel orig inUse (i + 1) (orig ++ Nat.repr i)
    else pkg

/-- Embedding of RegisterUniquePackageName (src/unnamed/part_004 lines
359-373): convert the candidate with badToUnderscore, run the renaming
loop against the registered-name set, record the winner. The returned pair
is (registered name, updated registry). The fuel inUse.length + 2 is
enough for the loop to reach the exit the unbounded Go loop reaches (see
registerFuelSufficient). -/
def registerUniquePackageName (pkg : String) (inUse : List String) : String × List String :=
  let conv := pkg.map badToUnderscore
  let result := registerLoop (inUse.length + 2) conv inUse 1 conv
  (result, result :: inUse)

/-- Embedding of the registration sequence of SetPackageNames
(src/unnamed/part_004 lines 470-495): the package name of the files being
generated is registered first (g.genFiles[0]), then the support packages
"fmt", "math" and "proto" in that order, then the package name of every
dependency file. Returns the registered names in registration order
together with the final registry. -/
def setPackageNamesRegs (genPkg : String) (depPkgs : List String) :
    (String × String × String × String × List String) × List String :=
  let r0 := registerUniquePackageName genPkg []
  let r1 := registerUniquePackageName "fmt" r0.2
  let r2 := registerUniquePackageName "math" r1.2
  let r3 := registerUniquePackageName "proto" r2.2
  let rd := depPkgs.foldl
    (fun acc p =>
      let r := registerUniquePackageName p acc.2
      (acc.1 ++ [r.1], r.2))
    (([] : List String), r3.2)
  ((r0.1, r1.1, r2.1, r3.1, rd.1), rd.2)

/-! ### Decimal representation facts

Nat.repr is the strconv.Itoa of the embedding; the freshness argument for
registerLoop needs its injectivity, proved here through an explicit digit
list. -/

/-- Digit list of n in base 10, most significant first; agrees with
Nat.toDigits 10. -/
def digitsList (n : Nat) : List Char :=
  if _h : n / 10 = 0 then [Nat.digitChar (n % 10)]
  else digitsList (n / 10) ++ [Nat.digitChar (n % 10)]
termination_by n
decreasing_by
  exact Nat.div_lt_self (Nat.pos_of_ne_zero (fun hn => _h (by simp [hn]))) (by norm_num)

/-- Numeric value of a digit character produced by Nat.digitChar on 0..9. -/
def digitVal (c : Char) : Nat := c.toNat - 48

theorem digitVal_digitChar (m : Nat) (h : m < 10) : digitVal (Nat.digitChar m) = m := by
  interval_cases m <;> rfl

theorem toDigitsCore_eq (n : Nat) : ∀ f l, n < f →
    Nat.toDigitsCore 10 f n l = digitsList n ++ l := by
  induction n using Nat.strong_induction_on with
  | _ n ih =>
    intro f l hf
    match f, hf with
    | f + 1, hf =>
      rw [Nat.toDigitsCore]
      by_cases h0 : n / 10 = 0
      · simp only [h0, if_pos]
        rw [digitsList, dif_pos h0]
        rfl
      · simp only [h0, if_neg, ite_false]
        have hpos : 0 < n := Nat.pos_of_ne_zero (fun hn => h0 (by simp [hn]))
        have hlt : n / 10 < n := Nat.div_lt_self hpos (by norm_num)
        have hfl : n / 10 < f := lt_of_lt_of_le hlt (Nat.lt_succ_iff.mp hf)
        rw [ih (n / 10) hlt f (Nat.digitChar (n % 10) :: l) hfl]
        conv_rhs => rw [digitsList, dif_neg h0]
        simp

theorem repr_eq_digitsList (n : Nat) : Nat.repr n = (digitsList n).asString := by
  show (Nat.toDigits 10 n).asString = _
  rw [Nat.toDigits, toDigitsCore_eq n (n + 1) [] (Nat.lt_succ_self n), List.append_nil]

theorem digitsList_foldl (n : Nat) : ∀ a : Nat,
    (digitsList n).foldl (fun a c => a * 10 + digitVal c) a =
      a * 10 ^ (digitsList n).length + n := by
  induction n using Nat.strong_induction_on with
  | _ n ih =>
    intro a
    by_cases h0 : n / 10 = 0
    · rw [digitsList, dif_pos h0]
      have hn : n < 10 := by omega
      simp [List.foldl, digitVal_digitChar (n % 10) (Nat.mod_lt n (by norm_num) )]
      omega
    · have hpos : 0 < n := Nat.pos_of_ne_zero (fun hn => h0 (by simp [hn]))
      have hlt : n / 10 < n := Nat.div_lt_self hpos (by norm_num)
      rw [digitsList, dif_neg h0]
      rw [List.foldl_append, ih (n / 10) hlt a]
      simp [List.foldl, digitVal_digitChar (n % 10) (Nat.mod_lt n (by norm_num))]
      rw [pow_succ]
      have := Nat.div_add_mod n 10
      ring_nf
      omega

theorem digitsList_value (n : Nat) :
    (digitsList n).foldl (fun a c => a * 10 + digitVal c) 0 = n := by
  rw [digitsList_foldl n 0]
  simp

theorem repr_injective : Function.Injective Nat.repr := by
  intro a b hab
  rw [repr_eq_digitsList, repr_eq_digitsList] at hab
  have hdl : digitsList a = digitsList b := by
    have := congrArg String.data hab
    simpa [List.asString] using this
  have := digitsList_value a
  rw [hdl, digitsList_value b] at this
  exact this.symm

/-! ### Identifier allocation (claim C1)

src/unnamed/part_004 lines 1388-1397 (methodNames) and 1449-1481
(allocNames inside generateMessage and its use per field). The usedNames
map becomes a list; the unbounded retry loop becomes structural with a
fuel argument, shown sufficient below because every retry lengthens every
candidate by one character while the registered names keep their
lengths. -/

/-- Embedding of methodNames (src/unnamed/part_004 lines 1388-1397): the
reserved method-name set preloaded into usedNames. -/
def methodNames : List String :=
  ["Reset", "String", "ProtoMessage", "Marshal", "Unmarshal",
   "ExtensionRangeArray", "ExtensionMap", "Descriptor"]

/-- Embedding of the retry loop of allocNames (src/unnamed/part_004 lines
1449-1465): if any candidate is used, append "_" to every candidate
simultaneously and retry; otherwise mark all candidates used and return
them. The pair is (updated usedNames, returned candidates). -/
def allocNamesAux : Nat → List String → List String → List String × List String
  | 0, used, ns => (used, ns)
  | fuel + 1, used, ns =>
    if ns.any (fun n => n ∈ used) then
      allocNamesAux fuel used (ns.map (fun n => n ++ "_"))
    else (used ++ ns, ns)

/-- Longest length among the used names; collisions are impossible once
every candidate is longer than this. -/
def maxLen (l : List String) : Nat := l.foldr (fun s m => max s.length m) 0

/-- Embedding of allocNames: the Go loop runs until no candidate
collides, which takes at most maxLen used + 2 rounds because each round
lengthens every candidate (allocSpec shows this fuel reaches the same
exit). -/
def allocNames (used ns : List String) : List String × List String :=
  allocNamesAux (maxLen used + 2) used ns

/-- String of k underscores: the suffix the retry loop has appended after
k rounds. -/
def unds (k : Nat) : String := ⟨List.replicate k '_'⟩

/-- Embedding of the per-field allocation loop of generateMessage
(src/unnamed/part_004 lines 1466-1481): for each field, the CamelCased
base name and its getter name Get+base are allocated in one batch, with
usedNames threaded through; returns the final usedNames and all allocated
identifiers in order. -/
def allocLoop : List String → List String → List String × List String
  | used, [] => (used, [])
  | used, b :: bs =>
    let r := allocNames used [b, "Get" ++ b]
    let rest := allocLoop r.1 bs
    (rest.1, r.2 ++ rest.2)

/-- Embedding of the whole field/getter identifier allocation for one
message: usedNames starts as the reserved methodNames set
(src/unnamed/part_004 lines 1456-1459), then every field allocates its
name and getter name. -/
def allocFieldNames (bases : List String) : List String × List String :=
  allocLoop methodNames bases

/-! ## Theorems settling the claims -/

/-- Helper: an if-then-else between ",packed" and "" hits ",packed" exactly
when its condition holds. -/
theorem ite_packed_iff (c : Bool) : ((if c then ",packed" else "") = ",packed") ↔ c = true := by
  cases c
  · exact ⟨fun h => absurd h (by decide), fun h => nomatch h⟩
  · exact ⟨fun _ => rfl, fun _ => rfl⟩

/-- C10: the two duplicated needsStar implementations do NOT compute the
same function: the src/descriptor.go copy returns true on TYPE_GROUP and
TYPE_MESSAGE (its Go switch cases for them are empty, so control falls out
of the switch to `return true`), while the src/unnamed/part_004 copy
returns false there; they agree on TYPE_BYTES and on every kind outside
the three special ones. -/
theorem c10_needsStar_divergence :
    needsStarDescriptorGo TYPE_GROUP = true ∧ needsStarGenerator TYPE_GROUP = false ∧
    needsStarDescriptorGo TYPE_MESSAGE = true ∧ needsStarGenerator TYPE_MESSAGE = false ∧
    needsStarDescriptorGo TYPE_BYTES = false ∧ needsStarGenerator TYPE_BYTES = false ∧
    needsStarDescriptorGo TYPE_INT32 = true ∧ needsStarGenerator TYPE_INT32 = true := by
  decide

/-- C3: the derived tag contains the ",packed" marker iff the field has an
explicit packed option set true, or has no packed option at all and is a
repeated scalar-numeric field of a proto3 file; an explicit packed=false
always suppresses the marker, and a legacy-syntax repeated scalar field
with no option is never marked packed. -/
theorem c3_packed_marker (proto3 : Bool) (f : FieldM) :
    (goTagPacked proto3 f = ",packed" ↔
      (f.options.bind FieldOptionsM.packed = some true ∨
       (f.options.bind FieldOptionsM.packed = none ∧ proto3 = true ∧
        isRepeated f = true ∧ isScalar f = true))) ∧
    (f.options.bind FieldOptionsM.packed = some false → goTagPacked proto3 f = "") ∧
    (proto3 = false → f.options.bind FieldOptionsM.packed = none → goTagPacked proto3 f = "") := by
  have h1 : goTagPacked proto3 f = ",packed" ↔
      ((f.options.isSome && getPacked f.options) ||
        (proto3 && (f.options.isNone || (f.options.bind FieldOptionsM.packed).isNone) &&
         isRepeated f && isScalar f)) = true := by
    unfold goTagPacked
    exact ite_packed_iff _
  have h0 : ∀ c : Bool, c = false → ((if c then ",packed" else "") = "") := by
    intro c hc; rw [hc]; rfl
  rcases f with ⟨l, t, o⟩
  rcases o with _ | ⟨_ | b⟩
  · refine ⟨h1.trans ?_, ?_, ?_⟩
    · simp [getPacked, Option.bind, and_assoc]
    · intro h; simp [Option.bind] at h
    · intro hp _
      unfold goTagPacked
      apply h0
      simp [getPacked, hp]
  · refine ⟨h1.trans ?_, ?_, ?_⟩
    · simp [getPacked, Option.bind, and_assoc]
    · intro h; simp [Option.bind] at h
    · intro hp _
      unfold goTagPacked
      apply h0
      simp [getPacked, hp]
  · refine ⟨h1.trans ?_, ?_, ?_⟩
    · cases b <;> simp [getPacked, Option.bind, and_assoc]
    · intro h
      simp [Option.bind] at h
      unfold goTagPacked
      apply h0
      simp [getPacked, h]
    · intro hp h
      simp [Option.bind] at h

/-- Witness for C3 at concrete fields: a repeated int32 proto3 field with
no options is marked packed; the same field with an explicit packed=false
is not; and in a legacy-syntax file with no option it is not. -/
theorem c3_packed_marker_witness :
    goTagPacked true ⟨some LABEL_REPEATED, some TYPE_INT32, none⟩ = ",packed" ∧
    goTagPacked true ⟨some LABEL_REPEATED, some TYPE_INT32, some ⟨some false⟩⟩ = "" ∧
    goTagPacked false ⟨some LABEL_REPEATED, some TYPE_INT32, none⟩ = "" :=
  ⟨(c3_packed_marker true ⟨some LABEL_REPEATED, some TYPE_INT32, none⟩).1.mpr
      (Or.inr ⟨rfl, rfl, by decide, by decide⟩),
   (c3_packed_marker true ⟨some LABEL_REPEATED, some TYPE_INT32, some ⟨some false⟩⟩).2.1 rfl,
   (c3_packed_marker false ⟨some LABEL_REPEATED, some TYPE_INT32, none⟩).2.2 rfl rfl⟩

/-- C9: a TYPE_MESSAGE field whose resolved descriptor carries the
map-entry flag is treated as a map; the generator reads exactly the first
and second entries of the entry message's field list as key and value —
in bounds whenever the entry message has at least two fields, never
consulting any later field — and there is no guarding count check: with
fewer than two fields the unguarded indexing faults (none). -/
theorem c9_map_entry (ft : Nat) (flag : Bool) (fields : List FieldM) :
    (treatedAsMap ft flag = true ↔ (ft = TYPE_MESSAGE ∧ flag = true)) ∧
    (2 ≤ fields.length →
      ∃ k v, fields[0]? = some k ∧ fields[1]? = some v ∧
        mapEntryKeyVal fields = some (k, v)) ∧
    (∀ k v rest rest', mapEntryKeyVal (k :: v :: rest) = mapEntryKeyVal (k :: v :: rest')) ∧
    (fields.length < 2 → mapEntryKeyVal fields = none) := by
  refine ⟨?_, ?_, ?_, ?_⟩
  · simp [treatedAsMap]
  · intro hlen
    match fields, hlen with
    | k :: v :: rest, _ => exact ⟨k, v, by simp, by simp, rfl⟩
  · intro k v rest rest'
    rfl
  · intro hlen
    match fields, hlen with
    | [], _ => rfl
    | [_], _ => rfl

/-- Witness for C9 at a concrete two-field entry message. -/
theorem c9_map_entry_witness :
    treatedAsMap TYPE_MESSAGE true = true ∧
    mapEntryKeyVal [⟨some 1, some TYPE_INT32, none⟩, ⟨some 1, some TYPE_STRING, none⟩] =
      some (⟨some 1, some TYPE_INT32, none⟩, ⟨some 1, some TYPE_STRING, none⟩) ∧
    mapEntryKeyVal [⟨some 1, some TYPE_INT32, none⟩] = none :=
  ⟨(c9_map_entry TYPE_MESSAGE true []).1.mpr ⟨rfl, rfl⟩,
   by
    obtain ⟨k, v, hk, hv, hkv⟩ :=
      (c9_map_entry TYPE_MESSAGE true
        [⟨some 1, some TYPE_INT32, none⟩, ⟨some 1, some TYPE_STRING, none⟩]).2.1 (by decide)
    cases hk
    cases hv
    exact hkv,
   (c9_map_entry TYPE_MESSAGE true [⟨some 1, some TYPE_INT32, none⟩]).2.2.2 (by decide)⟩

/-- C2: for an enum field with no explicit default, no oneof membership
(and not repeated, so a fallback is emitted at all), the emitted fallback
is the generated constant of the first declared value of the enum, whose
value in the generated constant block is that value's integer — whatever
that integer is, zero or not; an enum with no declared values falls back
to a literal 0. -/
theorem c2_enum_getter_default (e : EnumM) :
    (∀ v rest, e.value = v :: rest →
      getterFallback TYPE_ENUM false false false (some e) =
          some (GetterFallback.retEnumConst v.name) ∧
      fallbackIntValue e (GetterFallback.retEnumConst v.name) = some v.number) ∧
    (e.value = [] →
      getterFallback TYPE_ENUM false false false (some e) =
          some GetterFallback.retZeroEmptyEnum ∧
      fallbackIntValue e GetterFallback.retZeroEmptyEnum = some 0) := by
  constructor
  · intro v rest hv
    constructor
    · simp [getterFallback, getterNoDefaultFallback, TYPE_ENUM, TYPE_BOOL, TYPE_STRING,
        TYPE_GROUP, TYPE_MESSAGE, TYPE_BYTES, hv]
    · simp [fallbackIntValue, enumConstValue, enumConstEnv, hv, List.find?]
  · intro hv
    constructor
    · simp [getterFallback, getterNoDefaultFallback, TYPE_ENUM, TYPE_BOOL, TYPE_STRING,
        TYPE_GROUP, TYPE_MESSAGE, TYPE_BYTES, hv]
    · rfl

/-- Witness for C2: the spec scenario, an enum whose first declared value
is the non-zero FIRST = 3; the getter fallback is the FIRST constant and
its generated value is 3, not 0. -/
theorem c2_enum_getter_default_witness :
    (getterFallback TYPE_ENUM false false false (some ⟨[⟨"FIRST", 3⟩, ⟨"SECOND", 5⟩]⟩) =
        some (GetterFallback.retEnumConst "FIRST") ∧
      fallbackIntValue ⟨[⟨"FIRST", 3⟩, ⟨"SECOND", 5⟩]⟩
          (GetterFallback.retEnumConst "FIRST") = some 3) ∧
    (3 : Int) ≠ 0 :=
  ⟨(c2_enum_getter_default ⟨[⟨"FIRST", 3⟩, ⟨"SECOND", 5⟩]⟩).1 ⟨"FIRST", 3⟩
      [⟨"SECOND", 5⟩] rfl,
   by decide⟩

/-- Helper: outside the 18 declared field-type codes the marshaler switch
reaches its default branch. -/
theorem oneofMarshalKind_none (t : Nat) (ht : ¬(1 ≤ t ∧ t ≤ 18)) :
    oneofMarshalKind t = none := by
  have h19 : t = 0 ∨ 19 ≤ t := by omega
  unfold oneofMarshalKind
  simp only [TYPE_DOUBLE, TYPE_FLOAT, TYPE_INT64, TYPE_UINT64, TYPE_INT32, TYPE_FIXED64,
    TYPE_FIXED32, TYPE_BOOL, TYPE_STRING, TYPE_GROUP, TYPE_MESSAGE, TYPE_BYTES, TYPE_UINT32,
    TYPE_ENUM, TYPE_SFIXED32, TYPE_SFIXED64, TYPE_SINT32, TYPE_SINT64]
  repeat rw [if_neg (by omega)]

/-- Helper: outside the 18 declared field-type codes the unmarshaler decode
switch reaches its default branch. -/
theorem oneofUnmarshalDec_none (t : Nat) (ht : ¬(1 ≤ t ∧ t ≤ 18)) :
    oneofUnmarshalDec t = none := by
  have h19 : t = 0 ∨ 19 ≤ t := by omega
  unfold oneofUnmarshalDec
  simp only [TYPE_DOUBLE, TYPE_FLOAT, TYPE_INT64, TYPE_UINT64, TYPE_INT32, TYPE_FIXED64,
    TYPE_FIXED32, TYPE_BOOL, TYPE_STRING, TYPE_GROUP, TYPE_MESSAGE, TYPE_BYTES, TYPE_UINT32,
    TYPE_ENUM, TYPE_SFIXED32, TYPE_SFIXED64, TYPE_SINT32, TYPE_SINT64]
  repeat rw [if_neg (by omega)]

/-- Helper: the emitted oneof decode case returns handled together with the
bad-wire-type error, without decoding or assigning, whenever the incoming
wire type differs from the expected one. -/
theorem runCase_mismatch (c : OneofUnmarshalCase) (wire : String)
    (h : wire ≠ c.expectedWire) :
    runOneofUnmarshalCase c wire =
      { handled := true, badWireTypeError := true, decoded := false, assignedVariant := false } := by
  unfold runOneofUnmarshalCase
  rw [if_pos h]

/-- C8: in each emitted oneof encode case the tag varint write comes first,
before the per-kind primitive write; the primitive write is wrapped in an
error check exactly for message and group kinds (groups additionally get a
trailing end-group tag write, still after the value write); any kind
outside the supported enumeration makes the generator abort fatally at
generation time. -/
theorem c8_oneof_marshal (number t : Nat) :
    ((1 ≤ t ∧ t ≤ 18) → (oneofMarshalKind t).isSome = true) ∧
    (∀ k, oneofMarshalKind t = some k →
      oneofMarshalOps number t =
        some ([MarshalOp.writeTag number k.wire,
               MarshalOp.writeValue k.pre k.post k.canFail] ++
          (if t = TYPE_GROUP then [MarshalOp.writeEndGroupTag number] else [])) ∧
      (k.canFail = true ↔ (t = TYPE_MESSAGE ∨ t = TYPE_GROUP))) ∧
    (¬(1 ≤ t ∧ t ≤ 18) → oneofMarshalOps number t = none) := by
  by_cases h18 : 1 ≤ t ∧ t ≤ 18
  · obtain ⟨hl, hr⟩ := h18
    refine ⟨fun _ => ?_, fun k hk => ?_, fun hn => absurd ⟨hl, hr⟩ hn⟩
    · interval_cases t <;> rfl
    · interval_cases t <;>
        (cases hk; exact ⟨rfl, by decide⟩)
  · refine ⟨fun h => absurd h h18, fun k hk => ?_, fun _ => ?_⟩
    · rw [oneofMarshalKind_none t h18] at hk
      cases hk
    · unfold oneofMarshalOps
      rw [oneofMarshalKind_none t h18]

/-- Witness for C8 at concrete kinds: for a message-typed member the write
is error-checked and follows the tag write; for an int32 member it is not;
an out-of-range kind aborts generation. -/
theorem c8_oneof_marshal_witness :
    oneofMarshalOps 3 TYPE_MESSAGE =
      some [MarshalOp.writeTag 3 "WireBytes",
            MarshalOp.writeValue "b.EncodeMessage(" ")" true] ∧
    oneofMarshalOps 2 TYPE_INT32 =
      some [MarshalOp.writeTag 2 "WireVarint",
            MarshalOp.writeValue "b.EncodeVarint(uint64(" "))" false] ∧
    oneofMarshalOps 1 19 = none :=
  ⟨((c8_oneof_marshal 3 TYPE_MESSAGE).2.1 ⟨"WireBytes", "b.EncodeMessage(", ")", true⟩ rfl).1,
   ((c8_oneof_marshal 2 TYPE_INT32).2.1 ⟨"WireVarint", "b.EncodeVarint(uint64(", "))", false⟩ rfl).1,
   (c8_oneof_marshal 1 19).2.2 (by decide)⟩

/-- C7: for every supported oneof member kind the emitted decode case
guards on exactly the wire constant the emitted encode case writes (the
fieldWire entry the marshaler filled in), and on a mismatching incoming
wire type the generated codec returns handled=true with the bad-wire-type
error, decoding nothing and assigning no variant — a runtime error of the
generated program, while the generator itself emits the case without
failing. -/
theorem c7_oneof_wire_check (t : Nat) (hsup : 1 ≤ t ∧ t ≤ 18) :
    (oneofUnmarshalCase t).isSome = true ∧
    (oneofUnmarshalCase t).map OneofUnmarshalCase.expectedWire = fieldWireOf t ∧
    (∀ c, oneofUnmarshalCase t = some c → ∀ wire, wire ≠ c.expectedWire →
      runOneofUnmarshalCase c wire =
        { handled := true, badWireTypeError := true, decoded := false,
          assignedVariant := false }) := by
  obtain ⟨hl, hr⟩ := hsup
  refine ⟨?_, ?_, fun c hc wire hw => runCase_mismatch c wire hw⟩
  · interval_cases t <;> rfl
  · interval_cases t <;> rfl

/-- Witness for C7 at the string kind: the expected wire constant is the
one the marshaler writes (WireBytes), and an incoming WireVarint yields the
handled bad-wire-type outcome with no decode and no assignment. -/
theorem c7_oneof_wire_check_witness :
    (oneofUnmarshalCase TYPE_STRING).isSome = true ∧
    (oneofUnmarshalCase TYPE_STRING).map OneofUnmarshalCase.expectedWire =
      fieldWireOf TYPE_STRING ∧
    runOneofUnmarshalCase ⟨"WireBytes", "b.DecodeStringBytes()"⟩ "WireVarint" =
      { handled := true, badWireTypeError := true, decoded := false,
        assignedVariant := false } :=
  ⟨(c7_oneof_wire_check TYPE_STRING ⟨by decide, by decide⟩).1,
   (c7_oneof_wire_check TYPE_STRING ⟨by decide, by decide⟩).2.1,
   (c7_oneof_wire_check TYPE_STRING ⟨by decide, by decide⟩).2.2
     ⟨"WireBytes", "b.DecodeStringBytes()"⟩ rfl "WireVarint" (by decide)⟩

/-- Helper: the boolean direct-dependency test of ObjectNamed holds exactly
when the defining file is the current file or is resolved by name from the
current file's dependency list. -/
theorem direct_check_iff (g : GenM) (o : ObjectM) :
    ((o.fileName == g.file.name) ||
      g.file.dependency.any (fun dep =>
        match fileByName g dep with
        | some f => f.name == o.fileName
        | none => false)) = true ↔
      (o.fileName = g.file.name ∨
       ∃ dep ∈ g.file.dependency, ∃ f, fileByName g dep = some f ∧ f.name = o.fileName) := by
  rw [Bool.or_eq_true, beq_iff_eq, List.any_eq_true]
  apply or_congr Iff.rfl
  constructor
  · rintro ⟨dep, hdep, hm⟩
    refine ⟨dep, hdep, ?_⟩
    cases hf : fileByName g dep with
    | none => rw [hf] at hm; cases hm
    | some f =>
      rw [hf] at hm
      exact ⟨f, rfl, by simpa using hm⟩
  · rintro ⟨dep, hdep, f, hf, hname⟩
    exact ⟨dep, hdep, by rw [hf]; simpa using hname⟩

/-- C4: ObjectNamed aborts fatally when the fully-qualified name is absent
from the type-name map; returns the descriptor itself when its defining
file is the consuming file or is in the consuming file's dependency list;
otherwise returns an ImportedDescriptor wrapping the same descriptor found
by scanning the direct dependencies' public-import sets; and when no such
entry exists anywhere it only logs a warning and returns the original
descriptor unchanged. -/
theorem c4_objectNamed (g : GenM) (typeName : String)
    (wf : ∀ d ∈ g.file.dependency, (fileByName g d).isSome = true) :
    ((∀ p ∈ g.typeNameToObject, ¬p.1 = typeName) → objectNamed g typeName = .fatal) ∧
    (∀ q, g.typeNameToObject.find? (fun p => p.1 == typeName) = some q →
      ((q.2.fileName = g.file.name ∨
        ∃ dep ∈ g.file.dependency, ∃ f, fileByName g dep = some f ∧ f.name = q.2.fileName) →
        objectNamed g typeName = .direct q.2) ∧
      (¬(q.2.fileName = g.file.name ∨
         ∃ dep ∈ g.file.dependency, ∃ f, fileByName g dep = some f ∧ f.name = q.2.fileName) →
        ((∃ dep ∈ g.file.dependency, ∃ f df, fileByName g dep = some f ∧
            fileByName g f.name = some df ∧ ∃ td ∈ df.imp, td.oid = q.2.id) →
          ∃ td, td.oid = q.2.id ∧ objectNamed g typeName = .publicImport td) ∧
        ((∀ dep ∈ g.file.dependency, ∀ f df, fileByName g dep = some f →
            fileByName g f.name = some df → ∀ td ∈ df.imp, ¬td.oid = q.2.id) →
          objectNamed g typeName = .warnedOriginal q.2))) := by
  constructor
  · intro habs
    have hnone : g.typeNameToObject.find? (fun p => p.1 == typeName) = none := by
      rw [List.find?_eq_none]
      intro p hp
      simpa using habs p hp
    unfold objectNamed
    rw [hnone]
    rfl
  · intro q hq
    have hu : objectNamed g typeName =
        (if ((q.2.fileName == g.file.name) ||
              g.file.dependency.any (fun dep =>
                match fileByName g dep with
                | some f => f.name == q.2.fileName
                | none => false)) = true then
          ObjectNamedResult.direct q.2
        else
          match g.file.dependency.findSome? (fun dep =>
            match fileByName g dep with
            | some f0 =>
              match fileByName g f0.name with
              | some df => df.imp.find? (fun td => td.oid == q.2.id)
              | none => none
            | none => none) with
          | some td => ObjectNamedResult.publicImport td
          | none => ObjectNamedResult.warnedOriginal q.2) := by
      unfold objectNamed
      rw [hq]
      rfl
    constructor
    · intro hdirect
      rw [hu, if_pos ((direct_check_iff g q.2).mpr hdirect)]
    · intro hnd
      have hcond : ¬(((q.2.fileName == g.file.name) ||
          g.file.dependency.any (fun dep =>
            match fileByName g dep with
            | some f => f.name == q.2.fileName
            | none => false)) = true) := by
        intro hc
        exact hnd ((direct_check_iff g q.2).mp hc)
      constructor
      · rintro ⟨dep, hdep, f, df, hf, hdf, td0, htd0, hoid0⟩
        cases hfind : g.file.dependency.findSome? (fun dep =>
            match fileByName g dep with
            | some f0 =>
              match fileByName g f0.name with
              | some df => df.imp.find? (fun td => td.oid == q.2.id)
              | none => none
            | none => none) with
        | none =>
          exfalso
          rw [List.findSome?_eq_none] at hfind
          have hthis := hfind dep hdep
          simp only [hf, hdf] at hthis
          have h2 := List.find?_eq_none.mp hthis td0 htd0
          simp [hoid0] at h2
        | some td =>
          refine ⟨td, ?_, by rw [hu, if_neg hcond, hfind]⟩
          obtain ⟨dep', _hdep', hval⟩ := List.exists_of_findSome?_eq_some hfind
          cases hf' : fileByName g dep' with
          | none => simp [hf'] at hval
          | some f0 =>
            simp only [hf'] at hval
            cases hdf' : fileByName g f0.name with
            | none => simp [hdf'] at hval
            | some df' =>
              simp only [hdf'] at hval
              have := List.find?_some hval
              simpa using this
      · intro hall
        have hfind : g.file.dependency.findSome? (fun dep =>
            match fileByName g dep with
            | some f0 =>
              match fileByName g f0.name with
              | some df => df.imp.find? (fun td => td.oid == q.2.id)
              | none => none
            | none => none) = none := by
          rw [List.findSome?_eq_none_iff]
          intro dep hdep
          cases hf : fileByName g dep with
          | none => rfl
          | some f0 =>
            show (match fileByName g f0.name with
                  | some df => df.imp.find? (fun td => td.oid == q.2.id)
                  | none => none) = none
            cases hdf : fileByName g f0.name with
            | none => rfl
            | some df =>
              show df.imp.find? (fun td => td.oid == q.2.id) = none
              rw [List.find?_eq_none]
              intro td htd
              simpa using hall dep hdep f0 df hf hdf td htd
        rw [hu, if_neg hcond, hfind]

/-- Concrete file a.proto for the C4 witness: depends on b.proto only. -/
def aFileW : FileMod := { name := "a.proto", dependency := ["b.proto"], imp := [] }

/-- Concrete file b.proto for the C4 witness: depends on c.proto, exports
no public imports. -/
def bFileW : FileMod := { name := "b.proto", dependency := ["c.proto"], imp := [] }

/-- Concrete file c.proto for the C4 witness. -/
def cFileW : FileMod := { name := "c.proto", dependency := [], imp := [] }

/-- Concrete generator state for the C4 witness: the consuming file a.proto
references a type defined in c.proto, which is neither direct nor
re-exported by the direct dependency b.proto. -/
def gWitnessC4 : GenM :=
  { typeNameToObject := [(".pkg.T", { id := 7, fileName := "c.proto" })],
    allFiles := [aFileW, bFileW, cFileW],
    file := aFileW }

/-- Witness for C4 at a concrete generator state: a type defined two public
imports away from the consuming file, whose direct dependency does not
re-export it, is returned unchanged behind the warning. -/
theorem c4_objectNamed_witness :
    objectNamed gWitnessC4 ".pkg.T" =
      .warnedOriginal { id := 7, fileName := "c.proto" } :=
  ((c4_objectNamed gWitnessC4 ".pkg.T" (by decide)).2
    (".pkg.T", { id := 7, fileName := "c.proto" }) (by decide)).2
    (by
      rintro (h | ⟨dep, hdep, f, hf, hname⟩)
      · exact absurd h (by decide)
      · have hd : dep = "b.proto" := by simpa [gWitnessC4, aFileW] using hdep
        subst hd
        have hb : fileByName gWitnessC4 "b.proto" = some bFileW := by decide
        rw [hb] at hf
        injection hf with hf
        subst hf
        exact absurd hname (by decide))
    |>.2
    (by
      intro dep hdep f df hf hdf td htd
      have hd : dep = "b.proto" := by simpa [gWitnessC4, aFileW] using hdep
      subst hd
      have hb : fileByName gWitnessC4 "b.proto" = some bFileW := by decide
      rw [hb] at hf
      injection hf with hf
      subst hf
      have hb2 : fileByName gWitnessC4 bFileW.name = some bFileW := by decide
      rw [hb2] at hdf
      injection hdf with hdf
      subst hdf
      simp [bFileW] at htd)

/-! ### Registry lemmas for claims C5 and C6 -/

/-- Helper: a candidate that is not registered is returned by the loop at
once, with any fuel. -/
theorem registerLoop_not_mem (fuel : Nat) (orig : String) (inUse : List String)
    (i : Nat) (pkg : String) (h : pkg ∉ inUse) :
    registerLoop fuel orig inUse i pkg = pkg := by
  cases fuel with
  | zero => rfl
  | succ n =>
    unfold registerLoop
    rw [if_neg h]

/-- Helper: appending distinct decimal suffixes to the same stem gives
distinct strings. -/
theorem candidate_injective (orig : String) :
    Function.Injective (fun j : Nat => orig ++ Nat.repr j) := by
  intro a b hab
  apply repr_injective
  have hd := congrArg String.data hab
  simp [String.data_append] at hd
  exact String.ext hd

/-- Helper: among the suffixes 1 .. inUse.length + 1 some candidate is not
registered, because the candidates are pairwise distinct and inUse is too
short to hold them all. -/
theorem exists_fresh (orig : String) (inUse : List String) :
    ∃ j, 1 ≤ j ∧ j < inUse.length + 2 ∧ (orig ++ Nat.repr j) ∉ inUse := by
  by_contra hall
  push_neg at hall
  have hsub : (List.range' 1 (inUse.length + 1)).map (fun j => orig ++ Nat.repr j) ⊆ inUse := by
    intro x hx
    obtain ⟨j, hj, rfl⟩ := List.mem_map.mp hx
    have hj' := List.mem_range'_1.mp hj
    exact hall j hj'.1 (by omega)
  have hnd : ((List.range' 1 (inUse.length + 1)).map (fun j => orig ++ Nat.repr j)).Nodup :=
    (List.nodup_range' 1 (inUse.length + 1) 1 Nat.one_pos).map (candidate_injective orig)
  have hlen := (List.subperm_of_subset hnd hsub).length_le
  rw [List.length_map, List.length_range'] at hlen
  omega

/-- Helper: when the candidate collides, the loop walks the suffixes in
increasing order and stops at the first unregistered one, provided some
unregistered suffix lies within the fuel window. -/
theorem registerLoop_min (orig : String) (inUse : List String) :
    ∀ (fuel i : Nat) (pkg : String), pkg ∈ inUse →
    (∃ j, i ≤ j ∧ j < i + fuel ∧ (orig ++ Nat.repr j) ∉ inUse) →
    ∃ k, i ≤ k ∧ registerLoop fuel orig inUse i pkg = orig ++ Nat.repr k ∧
      (orig ++ Nat.repr k) ∉ inUse ∧
      ∀ j, i ≤ j → j < k → (orig ++ Nat.repr j) ∈ inUse := by
  intro fuel
  induction fuel with
  | zero =>
    intro i pkg _ hex
    obtain ⟨j, h1, h2, _⟩ := hex
    omega
  | succ n ih =>
    intro i pkg hmem hex
    unfold registerLoop
    rw [if_pos hmem]
    by_cases hfresh : (orig ++ Nat.repr i) ∈ inUse
    · obtain ⟨j, hij, hjlt, hjf⟩ := hex
      have hji : j ≠ i := fun hji => hjf (hji ▸ hfresh)
      obtain ⟨k, hk1, hkeq, hkf, hmin⟩ :=
        ih (i + 1) (orig ++ Nat.repr i) hfresh ⟨j, by omega, by omega, hjf⟩
      refine ⟨k, by omega, hkeq, hkf, fun j2 hj2 hj2k => ?_⟩
      by_cases hj2i : j2 = i
      · exact hj2i ▸ hfresh
      · exact hmin j2 (by omega) hj2k
    · refine ⟨i, le_refl i, registerLoop_not_mem n orig inUse (i + 1) _ hfresh, hfresh,
        fun j hj hjk => absurd (lt_of_le_of_lt hj hjk) (lt_irrefl i)⟩

/-- Helper: full input-output specification of RegisterUniquePackageName on
the threaded registry: the result is the converted candidate when free, or
the converted candidate with the least free decimal suffix otherwise; the
result is never already registered and is recorded at the head of the
registry. -/
theorem register_spec (pkg : String) (inUse : List String) :
    ((pkg.map badToUnderscore ∉ inUse →
       (registerUniquePackageName pkg inUse).1 = pkg.map badToUnderscore) ∧
     (pkg.map badToUnderscore ∈ inUse →
       ∃ k, 1 ≤ k ∧
         (registerUniquePackageName pkg inUse).1 = pkg.map badToUnderscore ++ Nat.repr k ∧
         (registerUniquePackageName pkg inUse).1 ∉ inUse ∧
         ∀ j, 1 ≤ j → j < k → (pkg.map badToUnderscore ++ Nat.repr j) ∈ inUse)) ∧
    (registerUniquePackageName pkg inUse).1 ∉ inUse ∧
    (registerUniquePackageName pkg inUse).2 =
      (registerUniquePackageName pkg inUse).1 :: inUse := by
  have hdef1 : (registerUniquePackageName pkg inUse).1 =
      registerLoop (inUse.length + 2) (pkg.map badToUnderscore) inUse 1
        (pkg.map badToUnderscore) := rfl
  have hnm : pkg.map badToUnderscore ∉ inUse →
      (registerUniquePackageName pkg inUse).1 = pkg.map badToUnderscore := by
    intro h
    rw [hdef1]
    exact registerLoop_not_mem _ _ _ _ _ h
  have hm : pkg.map badToUnderscore ∈ inUse →
      ∃ k, 1 ≤ k ∧
        (registerUniquePackageName pkg inUse).1 = pkg.map badToUnderscore ++ Nat.repr k ∧
        (registerUniquePackageName pkg inUse).1 ∉ inUse ∧
        ∀ j, 1 ≤ j → j < k → (pkg.map badToUnderscore ++ Nat.repr j) ∈ inUse := by
    intro h
    obtain ⟨j, hj1, hj2, hjf⟩ := exists_fresh (pkg.map badToUnderscore) inUse
    obtain ⟨k, hk1, hkeq, hkf, hmin⟩ :=
      registerLoop_min (pkg.map badToUnderscore) inUse (inUse.length + 2) 1
        (pkg.map badToUnderscore) h ⟨j, hj1, by omega, hjf⟩
    refine ⟨k, hk1, ?_, ?_, fun j2 hj2a hj2b => hmin j2 hj2a hj2b⟩
    · rw [hdef1]
      exact hkeq
    · rw [hdef1, hkeq]
      exact hkf
  refine ⟨⟨hnm, hm⟩, ?_, rfl⟩
  by_cases h : pkg.map badToUnderscore ∈ inUse
  · obtain ⟨k, _, _, hkf, _⟩ := hm h
    exact hkf
  · rw [hnm h]
    exact h

/-- C6: RegisterUniquePackageName converts the candidate with the
non-identifier-to-underscore map, then walks the numeric suffixes 1, 2,
3, ... in increasing order while the name is registered, returning the
first unregistered name (the converted candidate itself when free, else
the converted candidate with the least free suffix); the returned name is
recorded in the registry, it is never a name that was already registered,
and (the function being a pure function of candidate and registry) it is
deterministic, so a later call on the updated registry can never return
the same name again. -/
theorem c6_registerUniquePackageName (pkg : String) (inUse : List String) :
    ((pkg.map badToUnderscore ∉ inUse →
       (registerUniquePackageName pkg inUse).1 = pkg.map badToUnderscore) ∧
     (pkg.map badToUnderscore ∈ inUse →
       ∃ k, 1 ≤ k ∧
         (registerUniquePackageName pkg inUse).1 = pkg.map badToUnderscore ++ Nat.repr k ∧
         (registerUniquePackageName pkg inUse).1 ∉ inUse ∧
         ∀ j, 1 ≤ j → j < k → (pkg.map badToUnderscore ++ Nat.repr j) ∈ inUse)) ∧
    (registerUniquePackageName pkg inUse).1 ∉ inUse ∧
    (registerUniquePackageName pkg inUse).2 =
      (registerUniquePackageName pkg inUse).1 :: inUse ∧
    (∀ pkg2,
      (registerUniquePackageName pkg2 (registerUniquePackageName pkg inUse).2).1 ≠
        (registerUniquePackageName pkg inUse).1) := by
  obtain ⟨hspec, hfresh, hrec⟩ := register_spec pkg inUse
  refine ⟨hspec, hfresh, hrec, fun pkg2 => ?_⟩
  obtain ⟨_, hfresh2, _⟩ := register_spec pkg2 (registerUniquePackageName pkg inUse).2
  intro heq
  apply hfresh2
  rw [heq, hrec]
  exact List.mem_cons_self _ _

/-- Witness for C6: on an empty registry the converted name comes back
unchanged; on a registry already holding my_pkg the call returns a fresh
name and records it. -/
theorem c6_registerUniquePackageName_witness :
    (registerUniquePackageName "proto" []).1 = "proto" ∧
    (registerUniquePackageName "my-pkg" ["my_pkg"]).1 ∉ (["my_pkg"] : List String) ∧
    (registerUniquePackageName "my-pkg" ["my_pkg"]).2 =
      (registerUniquePackageName "my-pkg" ["my_pkg"]).1 :: ["my_pkg"] ∧
    (registerUniquePackageName "proto"
        (registerUniquePackageName "proto" []).2).1 ≠
      (registerUniquePackageName "proto" []).1 :=
  ⟨by
    have h := (c6_registerUniquePackageName "proto" []).1.1 (List.not_mem_nil _)
    rw [h, String.map_eq]
    decide,
   (c6_registerUniquePackageName "my-pkg" ["my_pkg"]).2.1,
   (c6_registerUniquePackageName "my-pkg" ["my_pkg"]).2.2.1,
   (c6_registerUniquePackageName "proto" []).2.2.2 "proto"⟩

/-- C5 counterexample: the claim that the support identifiers are
registered before any user file fails — SetPackageNames registers the
generated files' own package name first, so when the user package is
itself named "proto" the support package "proto" collides and is
registered as "proto1", a numeric disambiguation suffix. -/
theorem c5_counterexample :
    (setPackageNamesRegs "proto" []).1.1 = "proto" ∧
    (setPackageNamesRegs "proto" []).1.2.2.2.1 = "proto1" ∧
    ("proto1" : String) ≠ "proto" := by
  have hp : String.map badToUnderscore "proto" = "proto" := by rw [String.map_eq]; decide
  have hf : String.map badToUnderscore "fmt" = "fmt" := by rw [String.map_eq]; decide
  have hm : String.map badToUnderscore "math" = "math" := by rw [String.map_eq]; decide
  have e0 : registerUniquePackageName "proto" [] = ("proto", ["proto"]) := by
    have hdef : registerUniquePackageName "proto" [] =
        (registerLoop 2 (String.map badToUnderscore "proto") [] 1
            (String.map badToUnderscore "proto"),
         registerLoop 2 (String.map badToUnderscore "proto") [] 1
            (String.map badToUnderscore "proto") :: []) := rfl
    rw [hdef, hp]
    decide
  have e1 : registerUniquePackageName "fmt" ["proto"] = ("fmt", ["fmt", "proto"]) := by
    have hdef : registerUniquePackageName "fmt" ["proto"] =
        (registerLoop 3 (String.map badToUnderscore "fmt") ["proto"] 1
            (String.map badToUnderscore "fmt"),
         registerLoop 3 (String.map badToUnderscore "fmt") ["proto"] 1
            (String.map badToUnderscore "fmt") :: ["proto"]) := rfl
    rw [hdef, hf]
    decide
  have e2 : registerUniquePackageName "math" ["fmt", "proto"] =
      ("math", ["math", "fmt", "proto"]) := by
    have hdef : registerUniquePackageName "math" ["fmt", "proto"] =
        (registerLoop 4 (String.map badToUnderscore "math") ["fmt", "proto"] 1
            (String.map badToUnderscore "math"),
         registerLoop 4 (String.map badToUnderscore "math") ["fmt", "proto"] 1
            (String.map badToUnderscore "math") :: ["fmt", "proto"]) := rfl
    rw [hdef, hm]
    decide
  have e3 : registerUniquePackageName "proto" ["math", "fmt", "proto"] =
      ("proto1", ["proto1", "math", "fmt", "proto"]) := by
    have hdef : registerUniquePackageName "proto" ["math", "fmt", "proto"] =
        (registerLoop 5 (String.map badToUnderscore "proto") ["math", "fmt", "proto"] 1
            (String.map badToUnderscore "proto"),
         registerLoop 5 (String.map badToUnderscore "proto") ["math", "fmt", "proto"] 1
            (String.map badToUnderscore "proto") :: ["math", "fmt", "proto"]) := rfl
    rw [hdef, hp]
    decide
  have hs : setPackageNamesRegs "proto" [] =
      (("proto", "fmt", "math", "proto1", []), ["proto1", "math", "fmt", "proto"]) := by
    simp only [setPackageNamesRegs, e0, e1, e2, e3, List.foldl]
  rw [hs]
  exact ⟨rfl, rfl, by decide⟩

/-- C5 (amended): SetPackageNames registers the support identifiers
"fmt", "math", "proto" after the generated files' own package name but
before any dependency file's package name; consequently each support name
equals its candidate unmodified whenever the consuming package's
registered name differs from all three candidates. -/
theorem c5_support_registration (genPkg : String) (depPkgs : List String)
    (h : genPkg.map badToUnderscore ∉ (["fmt", "math", "proto"] : List String)) :
    (setPackageNamesRegs genPkg depPkgs).1.1 = genPkg.map badToUnderscore ∧
    (setPackageNamesRegs genPkg depPkgs).1.2.1 = "fmt" ∧
    (setPackageNamesRegs genPkg depPkgs).1.2.2.1 = "math" ∧
    (setPackageNamesRegs genPkg depPkgs).1.2.2.2.1 = "proto" := by
  have hp : ∀ s ∈ (["fmt", "math", "proto"] : List String),
      genPkg.map badToUnderscore ≠ s := fun s hs heq => h (heq ▸ hs)
  have hfm : String.map badToUnderscore "fmt" = "fmt" := by rw [String.map_eq]; decide
  have hmm : String.map badToUnderscore "math" = "math" := by rw [String.map_eq]; decide
  have hpm : String.map badToUnderscore "proto" = "proto" := by rw [String.map_eq]; decide
  have hnf : ("fmt" : String) ∉ [genPkg.map badToUnderscore] := by
    intro hmem
    rw [List.mem_singleton] at hmem
    exact hp "fmt" (by simp) hmem.symm
  have hnm2 : ("math" : String) ∉ ["fmt", genPkg.map badToUnderscore] := by
    intro hmem
    rcases List.mem_cons.mp hmem with h1 | h2
    · exact absurd h1 (by decide)
    · rw [List.mem_singleton] at h2
      exact hp "math" (by simp) h2.symm
  have hnp : ("proto" : String) ∉ ["math", "fmt", genPkg.map badToUnderscore] := by
    intro hmem
    rcases List.mem_cons.mp hmem with h1 | h2
    · exact absurd h1 (by decide)
    rcases List.mem_cons.mp h2 with h3 | h4
    · exact absurd h3 (by decide)
    · rw [List.mem_singleton] at h4
      exact hp "proto" (by simp) h4.symm
  have e0 : registerUniquePackageName genPkg [] =
      (genPkg.map badToUnderscore, [genPkg.map badToUnderscore]) := by
    have hdef : registerUniquePackageName genPkg [] =
        (registerLoop 2 (genPkg.map badToUnderscore) [] 1 (genPkg.map badToUnderscore),
         registerLoop 2 (genPkg.map badToUnderscore) [] 1 (genPkg.map badToUnderscore) :: []) :=
      rfl
    rw [hdef, registerLoop_not_mem _ _ _ _ _ (List.not_mem_nil _)]
  have e1 : registerUniquePackageName "fmt" [genPkg.map badToUnderscore] =
      ("fmt", ["fmt", genPkg.map badToUnderscore]) := by
    have hdef : registerUniquePackageName "fmt" [genPkg.map badToUnderscore] =
        (registerLoop 3 (String.map badToUnderscore "fmt") [genPkg.map badToUnderscore] 1
            (String.map badToUnderscore "fmt"),
         registerLoop 3 (String.map badToUnderscore "fmt") [genPkg.map badToUnderscore] 1
            (String.map badToUnderscore "fmt") :: [genPkg.map badToUnderscore]) := rfl
    rw [hdef, hfm, registerLoop_not_mem _ _ _ _ _ hnf]
  have e2 : registerUniquePackageName "math" ["fmt", genPkg.map badToUnderscore] =
      ("math", ["math", "fmt", genPkg.map badToUnderscore]) := by
    have hdef : registerUniquePackageName "math" ["fmt", genPkg.map badToUnderscore] =
        (registerLoop 4 (String.map badToUnderscore "math")
            ["fmt", genPkg.map badToUnderscore] 1 (String.map badToUnderscore "math"),
         registerLoop 4 (String.map badToUnderscore "math")
            ["fmt", genPkg.map badToUnderscore] 1 (String.map badToUnderscore "math") ::
           ["fmt", genPkg.map badToUnderscore]) := rfl
    rw [hdef, hmm, registerLoop_not_mem _ _ _ _ _ hnm2]
  have e3 : registerUniquePackageName "proto" ["math", "fmt", genPkg.map badToUnderscore] =
      ("proto", ["proto", "math", "fmt", genPkg.map badToUnderscore]) := by
    have hdef : registerUniquePackageName "proto"
        ["math", "fmt", genPkg.map badToUnderscore] =
        (registerLoop 5 (String.map badToUnderscore "proto")
            ["math", "fmt", genPkg.map badToUnderscore] 1
            (String.map badToUnderscore "proto"),
         registerLoop 5 (String.map badToUnderscore "proto")
            ["math", "fmt", genPkg.map badToUnderscore] 1
            (String.map badToUnderscore "proto") ::
           ["math", "fmt", genPkg.map badToUnderscore]) := rfl
    rw [hdef, hpm, registerLoop_not_mem _ _ _ _ _ hnp]
  simp only [setPackageNamesRegs, e0, e1, e2, e3]
  exact ⟨trivial, trivial, trivial, trivial⟩

/-- Witness for the amended C5 at a concrete run: a user package mypkg and
one dependency; every support identifier is registered unmodified. -/
theorem c5_support_registration_witness :
    (setPackageNamesRegs "mypkg" ["dep1"]).1.2.1 = "fmt" ∧
    (setPackageNamesRegs "mypkg" ["dep1"]).1.2.2.1 = "math" ∧
    (setPackageNamesRegs "mypkg" ["dep1"]).1.2.2.2.1 = "proto" :=
  ⟨(c5_support_registration "mypkg" ["dep1"] (by rw [String.map_eq]; decide)).2.1,
   (c5_support_registration "mypkg" ["dep1"] (by rw [String.map_eq]; decide)).2.2.1,
   (c5_support_registration "mypkg" ["dep1"] (by rw [String.map_eq]; decide)).2.2.2⟩

/-! ### Allocation lemmas for claim C1 -/

/-- Helper: the retry loop returns exactly as many identifiers as
candidates, whatever the fuel. -/
theorem allocNamesAux_length (fuel : Nat) :
    ∀ used ns : List String, ((allocNamesAux fuel used ns).2).length = ns.length := by
  induction fuel with
  | zero => intro used ns; rfl
  | succ n ih =>
    intro used ns
    unfold allocNamesAux
    by_cases h : ns.any (fun n => decide (n ∈ used)) = true
    · rw [if_pos h, ih used (ns.map (fun n => n ++ "_")), List.length_map]
    · rw [if_neg h]

/-- Helper: a member of a string list is at most as long as maxLen. -/
theorem le_maxLen {s : String} {l : List String} (h : s ∈ l) : s.length ≤ maxLen l := by
  induction l with
  | nil => cases h
  | cons a t ih =>
    show s.length ≤ max a.length (maxLen t)
    rcases List.mem_cons.mp h with h1 | h2
    · exact h1 ▸ le_max_left _ _
    · exact le_trans (ih h2) (le_max_right _ _)

/-- Helper: one more underscore on the right. -/
theorem append_unds_succ (n : String) (k : Nat) :
    (n ++ "_") ++ unds k = n ++ unds (k + 1) := by
  apply String.ext
  simp [unds, String.data_append, List.replicate_succ]

/-- Helper: zero underscores change nothing. -/
theorem append_unds_zero (n : String) : n ++ unds 0 = n := by
  have h : unds 0 = "" := rfl
  rw [h, String.append_empty]

/-- Helper: full postcondition of the retry loop under sufficient fuel:
every returned name avoids the used set, the used set grows by exactly the
returned names, and all candidates carry the same underscore suffix. -/
theorem allocNamesAux_spec (fuel : Nat) :
    ∀ used ns : List String,
    (∀ n ∈ ns, maxLen used + 2 ≤ n.length + fuel) → 1 ≤ fuel →
    (∀ x ∈ (allocNamesAux fuel used ns).2, x ∉ used) ∧
    (allocNamesAux fuel used ns).1 = used ++ (allocNamesAux fuel used ns).2 ∧
    (∃ k, (allocNamesAux fuel used ns).2 = ns.map (fun n => n ++ unds k)) := by
  induction fuel with
  | zero => intro used ns _ hpos; omega
  | succ m ih =>
    intro used ns hfuel _
    by_cases hany : ns.any (fun n => decide (n ∈ used)) = true
    · have hstep : allocNamesAux (m + 1) used ns =
          allocNamesAux m used (ns.map (fun n => n ++ "_")) := by
        show (if (ns.any fun n => decide (n ∈ used)) = true
              then allocNamesAux m used (ns.map (fun n => n ++ "_"))
              else (used ++ ns, ns)) = _
        rw [if_pos hany]
      obtain ⟨n0, hn0, hn0u⟩ := by simpa using List.any_eq_true.mp hany
      have hm1 : 1 ≤ m := by
        have h1 := hfuel n0 hn0
        have h2 := le_maxLen hn0u
        omega
      have hfuel' : ∀ n ∈ ns.map (fun n => n ++ "_"),
          maxLen used + 2 ≤ n.length + m := by
        intro x hx
        obtain ⟨n, hn, rfl⟩ := List.mem_map.mp hx
        rw [String.length_append]
        have := hfuel n hn
        have h1 : ("_" : String).length = 1 := rfl
        omega
      obtain ⟨hnm, happ, k, hk⟩ := ih used (ns.map (fun n => n ++ "_")) hfuel' hm1
      rw [hstep]
      refine ⟨hnm, happ, k + 1, ?_⟩
      rw [hk, List.map_map]
      apply List.map_congr_left
      intro n _
      exact append_unds_succ n k
    · have hstep : allocNamesAux (m + 1) used ns = (used ++ ns, ns) := by
        show (if (ns.any fun n => decide (n ∈ used)) = true
              then allocNamesAux m used (ns.map (fun n => n ++ "_"))
              else (used ++ ns, ns)) = (used ++ ns, ns)
        rw [if_neg hany]
      rw [hstep]
      have hnm : ∀ x ∈ ns, x ∉ used := by
        simpa using (Bool.not_eq_true _).mp hany
      refine ⟨hnm, rfl, 0, ?_⟩
      have hmap : ns.map (fun n => n ++ unds 0) = ns.map id := by
        apply List.map_congr_left
        intro n _
        exact append_unds_zero n
      rw [hmap, List.map_id]

/-- Helper: postcondition of allocNames itself: the fuel chosen in the
definition meets the sufficiency bound of allocNamesAux_spec. -/
theorem allocNames_spec (used ns : List String) :
    (∀ x ∈ (allocNames used ns).2, x ∉ used) ∧
    (allocNames used ns).1 = used ++ (allocNames used ns).2 ∧
    (∃ k, (allocNames used ns).2 = ns.map (fun n => n ++ unds k)) := by
  apply allocNamesAux_spec
  · intro n _
    omega
  · omega

/-- Helper: the two candidates of one field batch stay distinct under any
shared suffix, because the getter name is three characters longer. -/
theorem batch_pair_ne (b : String) (k : Nat) :
    b ++ unds k ≠ ("Get" ++ b) ++ unds k := by
  intro h
  have hlen := congrArg String.length h
  rw [String.length_append, String.length_append, String.length_append] at hlen
  have h3 : ("Get" : String).length = 3 := rfl
  omega

/-- Helper: invariant of the per-field allocation loop: the allocated
identifiers avoid the incoming used set, the used set grows by exactly
them, they are pairwise distinct, and there are two per field. -/
theorem allocLoop_spec : ∀ (bs : List String) (used : List String),
    (∀ x ∈ (allocLoop used bs).2, x ∉ used) ∧
    (allocLoop used bs).1 = used ++ (allocLoop used bs).2 ∧
    (allocLoop used bs).2.Nodup ∧
    (allocLoop used bs).2.length = 2 * bs.length := by
  intro bs
  induction bs with
  | nil =>
    intro used
    exact ⟨fun x hx => absurd hx (List.not_mem_nil x), (List.append_nil used).symm,
      List.nodup_nil, rfl⟩
  | cons b bs ih =>
    intro used
    obtain ⟨hr1, hr2, k, hk⟩ := allocNames_spec used [b, "Get" ++ b]
    obtain ⟨hrest1, hrest2, hrest3, hrest4⟩ := ih (allocNames used [b, "Get" ++ b]).1
    have hstep : allocLoop used (b :: bs) =
        ((allocLoop (allocNames used [b, "Get" ++ b]).1 bs).1,
         (allocNames used [b, "Get" ++ b]).2 ++
           (allocLoop (allocNames used [b, "Get" ++ b]).1 bs).2) := rfl
    rw [hstep]
    refine ⟨?_, ?_, ?_, ?_⟩
    · intro x hx
      rcases List.mem_append.mp hx with h1 | h2
      · exact hr1 x h1
      · intro hxu
        exact hrest1 x h2 (hr2 ▸ List.mem_append_left _ hxu)
    · rw [hrest2, hr2, List.append_assoc]
    · apply List.Nodup.append
      · rw [hk]
        simp only [List.map_cons, List.map_nil]
        exact List.nodup_cons.mpr ⟨by
          rw [List.mem_singleton]
          exact batch_pair_ne b k, List.nodup_singleton _⟩
      · exact hrest3
      · intro a ha1 ha2
        exact hrest1 a ha2 (hr2 ▸ List.mem_append_right _ ha1)
    · rw [List.length_append, hrest4]
      have hlen2 : (allocNames used [b, "Get" ++ b]).2.length = 2 :=
        allocNamesAux_length _ used [b, "Get" ++ b]
      rw [hlen2, List.length_cons]
      omega

/-- C1: allocNames returns exactly as many identifiers as candidates; when
any candidate of a batch collides with a used name, the underscore is
appended to every candidate of the batch simultaneously before the retry
(so the returned batch is the input batch with one shared suffix); and for
any message the full set of allocated field and getter identifiers is
pairwise distinct and disjoint from the reserved method-name set, with two
identifiers per field. -/
theorem c1_identifier_allocation (used ns bases : List String) :
    ((allocNames used ns).2.length = ns.length) ∧
    (ns.any (fun n => decide (n ∈ used)) = true →
      ∀ fuel, allocNamesAux (fuel + 1) used ns =
        allocNamesAux fuel used (ns.map (fun n => n ++ "_"))) ∧
    (∃ k, (allocNames used ns).2 = ns.map (fun n => n ++ unds k)) ∧
    (allocFieldNames bases).2.Nodup ∧
    (∀ x ∈ (allocFieldNames bases).2, x ∉ methodNames) ∧
    (allocFieldNames bases).2.length = 2 * bases.length := by
  obtain ⟨_, _, hsuf⟩ := allocNames_spec used ns
  obtain ⟨hl1, _, hl3, hl4⟩ := allocLoop_spec bases methodNames
  refine ⟨allocNamesAux_length _ used ns, ?_, hsuf, hl3, hl1, hl4⟩
  intro hany fuel
  show (if (ns.any fun n => decide (n ∈ used)) = true
        then allocNamesAux fuel used (ns.map (fun n => n ++ "_"))
        else (used ++ ns, ns)) = _
  rw [if_pos hany]

/-- Witness for C1 at concrete inputs: allocating the reserved name Reset
as a field base renames both the field and its getter with the same
underscore suffix, keeping the pair aligned and both outside the reserved
set. -/
theorem c1_identifier_allocation_witness :
    (allocNames methodNames ["Reset", "GetReset"]).2.length = 2 ∧
    allocNamesAux 3 ["Reset"] ["Reset"] = allocNamesAux 2 ["Reset"] ["Reset_"] ∧
    (allocFieldNames ["Reset"]).2.Nodup ∧
    (allocFieldNames ["Reset"]).2.length = 2 :=
  ⟨(c1_identifier_allocation methodNames ["Reset", "GetReset"] []).1,
   (c1_identifier_allocation ["Reset"] ["Reset"] []).2.1 (by decide) 2,
   (c1_identifier_allocation [] [] ["Reset"]).2.2.2.1,
   (c1_identifier_allocation [] [] ["Reset"]).2.2.2.2.2⟩

end ProtoGen
